import Mathlib

set_option maxHeartbeats 1000000

namespace IE

/-- Memory layout tags used by ie_layouts.cpp (from the public layout enum). -/
inductive Layout where
  | ANY | NCHW | NHWC | OIHW | C | CHW | HW | NC | CN | BLOCKED
deriving DecidableEq

/-- Sequence of sizes used throughout the source (std::vector of size_t),
modelled with unbounded naturals. -/
abbrev SizeVector := List Nat

/-- Message standing for the undefined behavior of unchecked std::vector
indexing past the end; the shallow embedding makes every such access explicit. -/
def oobMsg : String := "Out-of-bounds vector access (undefined behavior)"

/-- Checked vector indexing: models v[i], failing where C++ has undefined
behavior. -/
def at? : SizeVector → Nat → Except String Nat
  | [], _ => .error oobMsg
  | x :: _, 0 => .ok x
  | _ :: xs, n + 1 => at? xs n

/-- Layout Descriptor: block dims, strides, dimension order, leading offset and
per-dimension data padding, mirroring class BlockingDesc of ie_layouts. -/
structure BlockingDesc where
  blockedDims : SizeVector
  strides : SizeVector
  order : SizeVector
  offsetPadding : Nat
  offsetPaddingToData : SizeVector
deriving DecidableEq

/-- Right-to-left cumulative product of block dims: the strides loop of
BlockingDesc::fillDesc, with stride 1 on the last axis and
strides[j] = strides[j+1] * blocked_dims[j+1] before it. -/
def stridesOf : SizeVector → SizeVector
  | [] => []
  | _ :: bs => bs.prod :: stridesOf bs

/-- BlockingDesc::fillDesc: validates the two sequences, then sets the order,
the block dims, zero offsetPadding and offsetPaddingToData, and the canonical
strides. -/
def fillDesc (blocked_dims ord : SizeVector) : Except String BlockingDesc :=
  if ord.length ≠ blocked_dims.length then
    .error "Cannot fill descriptor. Size of dimensions and order vector do not match."
  else if blocked_dims.isEmpty || ord.isEmpty then
    .error "Cannot fill descriptor. Dimensions and order vector are empty."
  else
    .ok { blockedDims := blocked_dims, strides := stridesOf blocked_dims,
          order := ord,
          offsetPadding := 0,
          offsetPaddingToData := List.replicate ord.length 0 }

/-- The undefined Layout Descriptor: all sequences empty, zero offset. -/
def undefinedDesc : BlockingDesc :=
  { blockedDims := [], strides := [], order := [],
    offsetPadding := 0, offsetPaddingToData := [] }

/-- BlockingDesc constructor from explicit block dims and order: stores the
order, returns early (leaving every other sequence empty) when either input
sequence is empty, and otherwise delegates to fillDesc. -/
def mkBlockingDescOrder (block_dims ord : SizeVector) : Except String BlockingDesc :=
  if block_dims.isEmpty || ord.isEmpty then
    .ok { undefinedDesc with order := ord }
  else
    fillDesc block_dims ord

/-- BlockingDesc constructor from logical dims and a symbolic layout
(BlockingDesc::BlockingDesc(dims, layout)): maps the tag to a canonical pair
of permuted dims and order and delegates to fillDesc. Empty dims, and layout
ANY, give the undefined descriptor. The CN case reads dims[1] and dims[2]
exactly as the source does. -/
def mkBlockingDescLayout (dims : SizeVector) (layout : Layout) : Except String BlockingDesc :=
  if dims.isEmpty then .ok undefinedDesc
  else
    match layout with
    | .ANY => .ok undefinedDesc
    | .C =>
        if dims.length ≠ 1 then .error "Dims and format are inconsistent."
        else fillDesc dims [0]
    | .OIHW | .NCHW =>
        if dims.length ≠ 4 then .error "Dims and format are inconsistent."
        else fillDesc dims [0, 1, 2, 3]
    | .NHWC =>
        if dims.length ≠ 4 then .error "Dims and format are inconsistent."
        else
          match at? dims 0, at? dims 2, at? dims 3, at? dims 1 with
          | .ok d0, .ok d2, .ok d3, .ok d1 => fillDesc [d0, d2, d3, d1] [0, 2, 3, 1]
          | _, _, _, _ => .error oobMsg
    | .CHW =>
        if dims.length ≠ 3 then .error "Dims and format are inconsistent."
        else fillDesc dims [0, 1, 2]
    | .CN =>
        if dims.length ≠ 2 then .error "Dims and format are inconsistent."
        else
          match at? dims 1, at? dims 2 with
          | .ok d1, .ok d2 => fillDesc [d1, d2] [1, 0]
          | _, _ => .error oobMsg
    | .NC | .HW =>
        if dims.length ≠ 2 then .error "Dims and format are inconsistent."
        else fillDesc dims [0, 1]
    | .BLOCKED =>
        fillDesc dims (List.range dims.length)

/-- Tensor Descriptor: logical dims, the associated Layout Descriptor, the
symbolic layout tag, and the precision tag (opaque, modelled as a number). -/
structure TensorDesc where
  dims : SizeVector
  blockingDesc : BlockingDesc
  layout : Layout
  precision : Nat
deriving DecidableEq

/-- Largest element of a vector: std::max_element, whose dereference is
undefined behavior on an empty range. -/
def maxElement (v : SizeVector) : Except String Nat :=
  match v.max? with
  | some m => .ok m
  | none => .error oobMsg

/-- Short-circuit chain of order[i] == k comparisons, as the layout-inference
switch of the TensorDesc constructor reads the order vector. -/
def ordMatches (v : SizeVector) : List (Nat × Nat) → Except String Bool
  | [] => .ok true
  | (i, k) :: rest =>
      match at? v i with
      | .error e => .error e
      | .ok x => if x = k then ordMatches v rest else .ok false

/-- Layout inference of the TensorDesc constructor from an explicit Layout
Descriptor: the switch on dims.size() inside the branch requiring
dims == blockingDesc.getBlockDims(), defaulting to BLOCKED. -/
def inferLayout (dims : SizeVector) (bd : BlockingDesc) : Except String Layout :=
  if dims = bd.blockedDims then
    match dims.length with
    | 1 => .ok Layout.C
    | 2 =>
        match ordMatches bd.order [(0, 0), (1, 1)] with
        | .error e => .error e
        | .ok b => .ok (if b then Layout.NC else Layout.CN)
    | 3 =>
        match ordMatches bd.order [(0, 0), (1, 1), (2, 2)] with
        | .error e => .error e
        | .ok b => .ok (if b then Layout.CHW else Layout.BLOCKED)
    | 4 =>
        match ordMatches bd.order [(0, 0), (1, 1), (2, 2), (3, 3)] with
        | .error e => .error e
        | .ok true => .ok Layout.NCHW
        | .ok false =>
            match ordMatches bd.order [(0, 0), (1, 2), (2, 3), (3, 1)] with
            | .error e => .error e
            | .ok b => .ok (if b then Layout.NHWC else Layout.BLOCKED)
    | _ => .ok Layout.BLOCKED
  else .ok Layout.BLOCKED

/-- TensorDesc constructor from precision, dims and an explicit Layout
Descriptor: requires dims.length = max(order) + 1, then infers the symbolic
layout tag by pattern-matching against the canonical forms. -/
def mkTensorDescBlocking (precision : Nat) (dims : SizeVector) (bd : BlockingDesc) :
    Except String TensorDesc :=
  match maxElement bd.order with
  | .error e => .error e
  | .ok m =>
      if dims.length ≠ m + 1 then
        .error "Cannot create TensorDesc! Blocked dims are inconsistent with original dims."
      else
        match inferLayout dims bd with
        | .error e => .error e
        | .ok layout =>
            .ok { dims := dims, blockingDesc := bd, layout := layout, precision := precision }

/-- TensorDesc constructor from precision, dims and a symbolic layout: builds
the canonical Layout Descriptor and stores dims and layout verbatim. -/
def mkTensorDescLayout (precision : Nat) (dims : SizeVector) (layout : Layout) :
    Except String TensorDesc :=
  match mkBlockingDescLayout dims layout with
  | .error e => .error e
  | .ok bd => .ok { dims := dims, blockingDesc := bd, layout := layout, precision := precision }

/-- TensorDesc::getLayoutByDims: default dense symbolic layout per dimension
count. -/
def getLayoutByDims (dims : SizeVector) : Layout :=
  match dims.length with
  | 1 => Layout.C
  | 2 => Layout.NC
  | 3 => Layout.CHW
  | 4 => Layout.NCHW
  | _ => Layout.BLOCKED

/-- First phase of TensorDesc::offset: walking physical axes from last to
first, split the referenced logical coordinate into the remainder within the
block and the carried quotient. Returns blockedShift together with the final
mutated coordinate vector. -/
def shiftLoop : SizeVector → SizeVector → SizeVector → Except String (SizeVector × SizeVector)
  | [], [], v => .ok ([], v)
  | o :: os, b :: bs, v =>
      match shiftLoop os bs v with
      | .error e => .error e
      | .ok (ss, v1) =>
          match at? v1 o with
          | .error e => .error e
          | .ok x => .ok (x % b :: ss, v1.set o (x / b))
  | _, _, _ => .error oobMsg

/-- Second phase of TensorDesc::offset: accumulate
(blockedShift[d] + offsetPaddingToData[d]) * strides[d]. The padding vector is
read unchecked in the source, so a too-short one is an out-of-bounds access. -/
def accumOffset : SizeVector → SizeVector → SizeVector → Except String Nat
  | [], _, _ => .ok 0
  | s :: ss, st :: sts, p :: ps =>
      match accumOffset ss sts ps with
      | .error e => .error e
      | .ok r => .ok ((s + p) * st + r)
  | _ :: _, _, _ => .error oobMsg

/-- TensorDesc::offset(SizeVector): the general coordinate-to-offset
resolver. -/
def TensorDesc.offset (td : TensorDesc) (v : SizeVector) : Except String Nat :=
  if td.layout = Layout.ANY then
    .error "Cannot calculate offset for any format!"
  else if td.blockingDesc.blockedDims.length ≠ td.blockingDesc.order.length ∨
      td.blockingDesc.strides.length ≠ td.blockingDesc.order.length then
    .error "Cannot calculate offset. Incorrect primitive descriptor!"
  else
    match shiftLoop td.blockingDesc.order td.blockingDesc.blockedDims v with
    | .error e => .error e
    | .ok (blockedShift, _) =>
        match accumOffset blockedShift td.blockingDesc.strides
            td.blockingDesc.offsetPaddingToData with
        | .error e => .error e
        | .ok s => .ok (td.blockingDesc.offsetPadding + s)

/-- Coordinate decomposition in TensorDesc::offset(size_t): successive
modulo/divide against dims from the last logical dimension to the first;
returns the position vector and the remaining quotient. -/
def decomposeRev (l : Nat) : SizeVector → SizeVector × Nat
  | [] => ([], l)
  | d :: ds =>
      ((decomposeRev l ds).2 % d :: (decomposeRev l ds).1, (decomposeRev l ds).2 / d)

/-- TensorDesc::offset(size_t): linear index to offset. -/
def TensorDesc.offsetLinear (td : TensorDesc) (l : Nat) : Except String Nat :=
  td.offset (decomposeRev l td.dims).1

/-- Total wrapper of offsetLinear used to state bijectivity. -/
def TensorDesc.offsetLinearD (td : TensorDesc) (l : Nat) : Nat :=
  ((td.offsetLinear l).toOption).getD 0

/-- TensorDesc::reshape(dims, layout): the padding check precedes every
mutation, so a failure leaves the receiver unchanged; the embedding returns
the error message together with the descriptor as it stands at the throw. -/
def TensorDesc.reshape (td : TensorDesc) (dims : SizeVector) (layout : Layout) :
    Except (String × TensorDesc) TensorDesc :=
  if td.blockingDesc.offsetPaddingToData.any (fun p => p != 0) then
    .error ("Cannot reshape a non-packaged blob!", td)
  else if layout ≠ Layout.ANY then
    match mkBlockingDescLayout dims layout with
    | .error e => .error (e, td)
    | .ok bd => .ok { td with blockingDesc := bd, layout := layout, dims := dims }
  else
    match mkBlockingDescLayout dims td.layout with
    | .error e => .error (e, td)
    | .ok bd => .ok { td with blockingDesc := bd, dims := dims }

/-- Static physical-axis table DIM_POSITIONS of the Fixed-Layout Offset
Counter. Modelled from the spec: the index constants I_W, I_H, I_C, I_N come
from a header that is not among the translated source files; the source
comment fixes the coordinate convention as reverse NCHW order (w, h, c, n),
giving I_W = 0, I_H = 1, I_C = 2, I_N = 3, and section 4.3 of the spec lists
the tables as width, height, channel, batch for row-major-4D and channel,
width, height, batch for channel-last-4D. Lookup fails on any other layout as
std::map::at does. -/
def dimPositions : Layout → Except String (List Nat)
  | .NCHW => .ok [0, 1, 2, 3]
  | .NHWC => .ok [2, 0, 1, 3]
  | _ => .error "map::at key not found"

/-- Fixed-Layout Offset Counter state: layout, dims and the multiplier table. -/
structure LayoutOffsetCounter where
  layout : Layout
  dims : SizeVector
  dims_count : Nat
  muls : SizeVector
deriving DecidableEq

/-- Constructor loop of LayoutOffsetCounter: for each i below the dim count,
read index = DIM_POSITIONS.at(layout)[i], write muls[index] = mul, and
multiply mul by dims[index]. The fuel argument counts the remaining
iterations. -/
def locMulsLoop (layout : Layout) (dims : SizeVector) :
    Nat → Nat → Nat → SizeVector → Except String SizeVector
  | 0, _, _, muls => .ok muls
  | fuel + 1, i, mul, muls =>
      match dimPositions layout with
      | .error e => .error e
      | .ok table =>
          match at? table i with
          | .error e => .error e
          | .ok index =>
              if index < muls.length then
                match at? dims index with
                | .error e => .error e
                | .ok d => locMulsLoop layout dims fuel (i + 1) (mul * d) (muls.set index mul)
              else
                .error oobMsg

/-- LayoutOffsetCounter constructor: muls starts as dims.size() copies of
size_t(-1), then is filled through the static table with a left-to-right
cumulative product seeded at 1. -/
def mkLayoutOffsetCounter (layout : Layout) (dims : SizeVector) :
    Except String LayoutOffsetCounter :=
  match locMulsLoop layout dims dims.length 0 1 (List.replicate dims.length (2 ^ 64 - 1)) with
  | .error e => .error e
  | .ok muls =>
      .ok { layout := layout, dims := dims, dims_count := dims.length, muls := muls }

/-- Summation loop of LayoutOffsetCounter::Offset. -/
def locOffsetLoop (pos muls : SizeVector) : Nat → Nat → Nat → Except String Nat
  | 0, _, res => .ok res
  | fuel + 1, i, res =>
      match at? pos i, at? muls i with
      | .ok p, .ok m => locOffsetLoop pos muls fuel (i + 1) (res + p * m)
      | .error e, _ => .error e
      | _, .error e => .error e

/-- LayoutOffsetCounter::Offset(pos): dot product of the coordinate, given in
reverse NCHW order (w, h, c, n), with the multiplier table. -/
def LayoutOffsetCounter.Offset (c : LayoutOffsetCounter) (pos : SizeVector) : Except String Nat :=
  locOffsetLoop pos c.muls c.dims_count 0 0

/-- Capability flag for the ref implementation kind.
Modelled from the spec: the enum impl_desc_type lives in a header that is not
among the translated source files; the spec treats it as an opaque set of
capability flags combined by bitwise OR with unknown as the empty value, so
each flag is modelled as a distinct bit and unknown as 0. -/
def refFlag : Nat := 1

/-- Capability flag bit for jit. -/
def jitFlag : Nat := 2

/-- Capability flag bit for gemm. -/
def gemmFlag : Nat := 4

/-- Capability flag bit for blas. -/
def blasFlag : Nat := 8

/-- Capability flag bit for sse42. -/
def sse42Flag : Nat := 16

/-- Capability flag bit for avx2. -/
def avx2Flag : Nat := 32

/-- Capability flag bit for avx512. -/
def avx512Flag : Nat := 64

/-- Capability flag bit for the any kind. -/
def anyFlag : Nat := 128

/-- Capability flag bit for the 1x1 specialization. -/
def f1x1Flag : Nat := 256

/-- Capability flag bit for the depthwise specialization. -/
def dwFlag : Nat := 512

/-- Capability flag bit for reorder. -/
def reorderFlag : Nat := 1024

/-- Capability flag bit for winograd. -/
def winogradFlag : Nat := 2048

/-- Value of impl_desc_type::unknown. -/
def unknownFlag : Nat := 0

/-- One SEARCH_WORD step of parse_impl_name: OR the flag in when the keyword
occurs as a contiguous substring of the name (std::string::find). -/
def searchWord (s kw : List Char) (flag res : Nat) : Nat :=
  if List.IsInfix kw s then res ||| flag else res

/-- The parse_impl_name function of iml_type_mapper.cpp: a chain of
SEARCH_WORD steps over the input string, starting from unknown. -/
def parse_impl_name (s : List Char) : Nat :=
  let res := unknownFlag
  let res := searchWord s ['r', 'e', 'f'] refFlag res
  let res := searchWord s ['j', 'i', 't'] jitFlag res
  let res := searchWord s ['g', 'e', 'm', 'm'] gemmFlag res
  let res := searchWord s ['b', 'l', 'a', 's'] blasFlag res
  let res := searchWord s ['s', 's', 'e', '4', '2'] sse42Flag res
  let res := searchWord s ['a', 'v', 'x', '2'] avx2Flag res
  let res := searchWord s ['a', 'v', 'x', '5', '1', '2'] avx512Flag res
  let res := searchWord s ['a', 'n', 'y'] anyFlag res
  let res := searchWord s ['_', '1', 'x', '1'] f1x1Flag res
  let res := searchWord s ['_', 'd', 'w'] dwFlag res
  let res := searchWord s ['r', 'e', 'o', 'r', 'd', 'e', 'r'] reorderFlag res
  let res := searchWord s ['n', 'c', 'h', 'w'] refFlag res
  let res := searchWord s ['w', 'i', 'n', 'o'] winogradFlag res
  res

/-- Product of the block dims at the later physical axes that map to logical
dimension idx: the amount already divided out of coordinate idx when the
offset loop reaches an axis. -/
def trailingProd : SizeVector → SizeVector → Nat → Nat
  | o :: os, b :: bs, idx => (if o = idx then b else 1) * trailingProd os bs idx
  | _, _, _ => 1

/-- Mathematical description of the blockedShift vector computed by the offset
loop: axis j holds the coordinate of logical dimension order[j], divided by
the block dims of the later axes mapping to the same logical dimension, modulo
its own block dim. -/
def shiftsSpec : SizeVector → SizeVector → SizeVector → SizeVector
  | o :: os, b :: bs, v => (v.getD o 0 / trailingProd os bs o) % b :: shiftsSpec os bs v
  | _, _, _ => []

/-- The per-axis offset sum: (shift + padding-to-data) * stride accumulated
over the physical axes. -/
def offSum : SizeVector → SizeVector → SizeVector → Nat
  | s :: ss, st :: sts, p :: ps => (s + p) * st + offSum ss sts ps
  | _, _, _ => 0

/-- Row-major recomposition of a coordinate vector against a dims vector. -/
def recompose : SizeVector → SizeVector → Nat
  | s :: ss, _ :: ds => s * ds.prod + recompose ss ds
  | _, _ => 0

lemma at?_eq_ok (v : SizeVector) (i : Nat) (h : i < v.length) :
    at? v i = .ok (v.getD i 0) := by
  induction v generalizing i with
  | nil => simp at h
  | cons x xs ih =>
    cases i with
    | zero => simp [at?]
    | succ n => simpa [at?] using ih n (by simpa using h)

lemma getD_set_self (v : SizeVector) (i : Nat) (x : Nat) (h : i < v.length) :
    (v.set i x).getD i 0 = x := by
  induction v generalizing i with
  | nil => simp at h
  | cons a as ih =>
    cases i with
    | zero => simp
    | succ n => simpa using ih n (by simpa using h)

lemma getD_set_ne (v : SizeVector) (i j : Nat) (x : Nat) (h : i ≠ j) :
    (v.set i x).getD j 0 = v.getD j 0 := by
  induction v generalizing i j with
  | nil => simp
  | cons a as ih =>
    cases i with
    | zero =>
      cases j with
      | zero => exact absurd rfl h
      | succ m => simp
    | succ n =>
      cases j with
      | zero => simp
      | succ m => simpa using ih n m (fun hh => h (by rw [hh]))

lemma stridesOf_length (bs : SizeVector) : (stridesOf bs).length = bs.length := by
  induction bs with
  | nil => rfl
  | cons b bs ih => simp [stridesOf, ih]

lemma stridesOf_getD (bs : SizeVector) (i : Nat) (h : i < bs.length) :
    (stridesOf bs).getD i 0 = (bs.drop (i + 1)).prod := by
  induction bs generalizing i with
  | nil => simp at h
  | cons b bs ih =>
    cases i with
    | zero => simp [stridesOf]
    | succ n => simpa [stridesOf] using ih n (by simpa using h)

lemma shiftsSpec_length (os : SizeVector) : ∀ (bs v : SizeVector), os.length = bs.length →
    (shiftsSpec os bs v).length = os.length := by
  induction os with
  | nil => intro bs v _; cases bs <;> rfl
  | cons o os ih =>
    intro bs v h
    cases bs with
    | nil => simp at h
    | cons b bs => simp [shiftsSpec, ih bs v (by simpa using h)]

lemma shiftLoop_spec (os : SizeVector) : ∀ (bs v : SizeVector),
    os.length = bs.length → (∀ o ∈ os, o < v.length) →
    ∃ v1, shiftLoop os bs v = .ok (shiftsSpec os bs v, v1) ∧ v1.length = v.length ∧
      ∀ idx, v1.getD idx 0 = v.getD idx 0 / trailingProd os bs idx := by
  induction os with
  | nil =>
    intro bs v hlen _
    cases bs with
    | nil => exact ⟨v, rfl, rfl, fun idx => by simp [trailingProd]⟩
    | cons b bs => simp at hlen
  | cons o os ih =>
    intro bs v hlen hmem
    cases bs with
    | nil => simp at hlen
    | cons b bs =>
      obtain ⟨v1, hsl, hlen1, hval⟩ :=
        ih bs v (by simpa using hlen) (fun x hx => hmem x (List.mem_cons_of_mem _ hx))
      have ho : o < v1.length := hlen1 ▸ hmem o (List.mem_cons_self _ _)
      have hx := at?_eq_ok v1 o ho
      refine ⟨v1.set o (v1.getD o 0 / b), ?_, by simp [hlen1], ?_⟩
      · simp only [shiftLoop, hsl, hx, shiftsSpec, hval o]
      · intro idx
        by_cases hio : o = idx
        · subst hio
          rw [getD_set_self _ _ _ ho, hval o, trailingProd]
          simp [Nat.div_div_eq_div_mul, Nat.mul_comm]
        · rw [getD_set_ne _ _ _ _ hio, hval idx, trailingProd]
          simp [hio]

lemma accumOffset_spec (ss : SizeVector) : ∀ (sts ps : SizeVector), ss.length = sts.length →
    ss.length ≤ ps.length → accumOffset ss sts ps = .ok (offSum ss sts ps) := by
  induction ss with
  | nil => intro sts ps _ _; rfl
  | cons s ss ih =>
    intro sts ps hlen hle
    cases sts with
    | nil => simp at hlen
    | cons st sts =>
      cases ps with
      | nil => simp at hle
      | cons p ps =>
        have := ih sts ps (by simpa using hlen) (by simpa using hle)
        simp only [accumOffset, this, offSum]

/-- Unfolding of the general offset resolver on a length-consistent
descriptor: offsetPadding plus the per-axis sum of the mathematically
described blocked shifts. -/
lemma offset_spec (td : TensorDesc) (v : SizeVector)
    (hl : td.layout ≠ Layout.ANY)
    (hbd : td.blockingDesc.blockedDims.length = td.blockingDesc.order.length)
    (hst : td.blockingDesc.strides.length = td.blockingDesc.order.length)
    (hpd : td.blockingDesc.offsetPaddingToData.length = td.blockingDesc.order.length)
    (hmem : ∀ o ∈ td.blockingDesc.order, o < v.length) :
    td.offset v = .ok (td.blockingDesc.offsetPadding +
      offSum (shiftsSpec td.blockingDesc.order td.blockingDesc.blockedDims v)
        td.blockingDesc.strides td.blockingDesc.offsetPaddingToData) := by
  obtain ⟨v1, hsl, _, _⟩ :=
    shiftLoop_spec td.blockingDesc.order td.blockingDesc.blockedDims v hbd.symm hmem
  have hacc := accumOffset_spec
    (shiftsSpec td.blockingDesc.order td.blockingDesc.blockedDims v)
    td.blockingDesc.strides td.blockingDesc.offsetPaddingToData
    (by rw [shiftsSpec_length _ _ _ hbd.symm, hst])
    (by rw [shiftsSpec_length _ _ _ hbd.symm, hpd])
  rw [TensorDesc.offset, if_neg hl, if_neg (by push_neg; exact ⟨hbd, hst⟩), hsl]
  simp only [hacc]

lemma decomposeRev_length (l : Nat) (D : SizeVector) :
    (decomposeRev l D).1.length = D.length := by
  induction D with
  | nil => rfl
  | cons d ds ih => simp [decomposeRev, ih]

lemma decomposeRev_bound (l : Nat) (D : SizeVector) (hpos : ∀ d ∈ D, 0 < d) :
    ∀ i, i < D.length → (decomposeRev l D).1.getD i 0 < D.getD i 0 := by
  induction D with
  | nil => intro i hi; simp at hi
  | cons d ds ih =>
    intro i hi
    cases i with
    | zero =>
      simpa [decomposeRev] using Nat.mod_lt _ (hpos d (List.mem_cons_self _ _))
    | succ n =>
      simpa [decomposeRev] using
        ih (fun x hx => hpos x (List.mem_cons_of_mem _ hx)) n (by simpa using hi)

lemma decomp_recomp (l : Nat) (D : SizeVector) (hpos : ∀ d ∈ D, 0 < d) :
    l = (decomposeRev l D).2 * D.prod + recompose (decomposeRev l D).1 D ∧
      recompose (decomposeRev l D).1 D < D.prod := by
  induction D with
  | nil => simp [decomposeRev, recompose]
  | cons d ds ih =>
    obtain ⟨heq, hlt⟩ := ih (fun x hx => hpos x (List.mem_cons_of_mem _ hx))
    have hd : 0 < d := hpos d (List.mem_cons_self _ _)
    have key : ∀ (l1 R P : Nat), l1 * P + R = l1 / d * (d * P) + (l1 % d * P + R) := by
      intro l1 R P
      conv_lhs => rw [← Nat.div_add_mod l1 d]
      ring
    constructor
    · simp only [decomposeRev, recompose, List.prod_cons]
      calc l = (decomposeRev l ds).2 * ds.prod + recompose (decomposeRev l ds).1 ds := heq
        _ = _ := key _ _ _
    · simp only [decomposeRev, recompose, List.prod_cons]
      have h1 : (decomposeRev l ds).2 % d < d := Nat.mod_lt _ hd
      calc (decomposeRev l ds).2 % d * ds.prod + recompose (decomposeRev l ds).1 ds
          < (decomposeRev l ds).2 % d * ds.prod + ds.prod := Nat.add_lt_add_left hlt _
        _ = ((decomposeRev l ds).2 % d + 1) * ds.prod := by ring
        _ ≤ d * ds.prod := Nat.mul_le_mul_right _ (by omega)

lemma recompose_decomposeRev (l : Nat) (D : SizeVector) (hpos : ∀ d ∈ D, 0 < d)
    (hl : l < D.prod) : recompose (decomposeRev l D).1 D = l := by
  obtain ⟨heq, hlt⟩ := decomp_recomp l D hpos
  rcases Nat.eq_zero_or_pos (decomposeRev l D).2 with hq | hq
  · rw [hq] at heq; simpa using heq.symm
  · exfalso
    have : D.prod ≤ (decomposeRev l D).2 * D.prod := Nat.le_mul_of_pos_left _ hq
    omega

lemma range'_lower : ∀ (n s x : Nat), x ∈ List.range' s n → s ≤ x := by
  intro n
  induction n with
  | zero => intro s x hx; simp at hx
  | succ m ih =>
    intro s x hx
    rw [List.range'_succ] at hx
    rcases List.mem_cons.mp hx with h | h
    · omega
    · have := ih (s + 1) x h; omega

lemma trailingProd_of_lt (os : SizeVector) : ∀ (bs : SizeVector) (idx : Nat),
    (∀ o ∈ os, idx < o) → trailingProd os bs idx = 1 := by
  induction os with
  | nil => intro bs idx _; cases bs <;> rfl
  | cons o os ih =>
    intro bs idx h
    cases bs with
    | nil => rfl
    | cons b bs =>
      have hne : ¬o = idx := by have := h o (List.mem_cons_self _ _); omega
      simp [trailingProd, hne, ih bs idx (fun x hx => h x (List.mem_cons_of_mem _ hx))]

lemma drop_eq_getD_cons (v : SizeVector) : ∀ (s : Nat), s < v.length →
    v.drop s = v.getD s 0 :: v.drop (s + 1) := by
  induction v with
  | nil => intro s h; simp at h
  | cons a as ih =>
    intro s h
    cases s with
    | zero => simp
    | succ n => simpa using ih n (by simpa using h)

lemma shiftsSpec_range' (bs : SizeVector) : ∀ (s : Nat) (v : SizeVector),
    v.length = s + bs.length →
    (∀ i, i < bs.length → v.getD (s + i) 0 < bs.getD i 0) →
    shiftsSpec (List.range' s bs.length) bs v = v.drop s := by
  induction bs with
  | nil =>
    intro s v hv _
    have : v.drop s = [] := List.drop_eq_nil_of_le (by simp at hv; omega)
    simp [shiftsSpec, this]
  | cons b bs ih =>
    intro s v hv hb
    have hs : s < v.length := by simp at hv; omega
    have h0 : v.getD s 0 < b := by simpa using hb 0 (by simp)
    have htail := ih (s + 1) v (by simp at hv ⊢; omega)
      (fun i hi => by
        have h2 := hb (i + 1) (by simpa using Nat.succ_lt_succ hi)
        have h3 : s + (i + 1) = s + 1 + i := by omega
        rw [h3] at h2
        simpa using h2)
    have htp : trailingProd (List.range' (s + 1) bs.length) bs s = 1 :=
      trailingProd_of_lt _ _ _ (fun o ho => by have := range'_lower _ _ _ ho; omega)
    rw [List.length_cons, List.range'_succ, shiftsSpec, htp, htail,
      drop_eq_getD_cons v s hs]
    have h0' : v[s]?.getD 0 < b := by simpa using h0
    simp [Nat.mod_eq_of_lt h0']

lemma offSum_strides (ss : SizeVector) : ∀ D : SizeVector, ss.length = D.length →
    offSum ss (stridesOf D) (List.replicate D.length 0) = recompose ss D := by
  induction ss with
  | nil =>
    intro D h
    cases D with
    | nil => rfl
    | cons d ds => simp at h
  | cons s ss ih =>
    intro D h
    cases D with
    | nil => simp at h
    | cons d ds =>
      simp [stridesOf, offSum, recompose, ih ds (by simpa using h)]

lemma getLayoutByDims_ne_any (D : SizeVector) : getLayoutByDims D ≠ Layout.ANY := by
  rw [getLayoutByDims]
  split <;> simp

lemma mkTensorDescLayout_canonical (p : Nat) (D : SizeVector) (hne : D ≠ []) (hlen : D.length ≤ 4) :
    mkTensorDescLayout p D (getLayoutByDims D) =
      .ok { dims := D,
            blockingDesc := { blockedDims := D, strides := stridesOf D,
                              order := List.range D.length, offsetPadding := 0,
                              offsetPaddingToData := List.replicate D.length 0 },
            layout := getLayoutByDims D, precision := p } := by
  rcases D with _ | ⟨a, _ | ⟨b, _ | ⟨c, _ | ⟨d, _ | ⟨e, t⟩⟩⟩⟩⟩
  · exact absurd rfl hne
  · rfl
  · rfl
  · rfl
  · rfl
  · exfalso; simp at hlen

lemma if_or_merge (c1 c2 : Prop) [Decidable c1] [Decidable c2] (f : Nat) :
    ((if c1 then f else 0) ||| if c2 then f else 0) = if c1 ∨ c2 then f else 0 := by
  by_cases h1 : c1 <;> by_cases h2 : c2 <;>
    simp [h1, h2, Nat.or_self, Nat.or_zero, Nat.zero_or]

lemma or_merge (x1 x2 b c d e f g h i j k : Nat) :
    (((((((((((0 ||| x1) ||| b) ||| c) ||| d) ||| e) ||| f) ||| g) ||| h) ||| i) ||| j) |||
        k) ||| x2 =
    ((((((((((x1 ||| x2) ||| b) ||| c) ||| d) ||| e) ||| f) ||| g) ||| h) ||| i) ||| j) ||| k := by
  simp only [Nat.zero_or]
  ac_rfl

lemma searchWord_or (s kw : List Char) (f r : Nat) :
    searchWord s kw f r = r ||| (if List.IsInfix kw s then f else 0) := by
  rw [searchWord]
  by_cases h : List.IsInfix kw s
  · simp [h]
  · simp [h]

/-- Claim C1: the layout round-trip fails on the code (code bug). Building a
Tensor Descriptor over dims [1,3,4,4] with the channel-last-4D layout and
re-deriving the symbolic layout from its Layout Descriptor yields
generic-blocked instead of channel-last-4D: the inference only reaches the
NHWC pattern under the guard dims == blockDims, which a genuinely permuted
descriptor never satisfies (and for column-major-2D even the construction
reads dims[2] past the end). -/
theorem c1_roundtrip_fails :
    (match mkTensorDescLayout 0 [1, 3, 4, 4] Layout.NHWC with
      | .error e => .error e
      | .ok td =>
          match mkTensorDescBlocking 0 [1, 3, 4, 4] td.blockingDesc with
          | .error e => .error e
          | .ok td2 => .ok td2.layout) = Except.ok Layout.BLOCKED := rfl

/-- Claim C2: constructing a Layout Descriptor from a 2-element dims with the
column-major-2D tag does not produce blockDims [dims[1], dims[0]]; the source
reads dims[1] and dims[2], so the second read is past the end of the
2-element vector (code bug: undefined behavior, modelled as a failure). -/
theorem c2_cn_out_of_bounds :
    mkBlockingDescLayout [2, 3] Layout.CN = .error oobMsg := rfl

/-- Claim C3, counterexample: on dims [1,2,3,4] with the row-major-4D layout
and the in-bounds coordinate [0,0,0,1], the general offset resolver returns 1
while the Fixed-Layout Offset Counter built from the same layout and the same
dims vector, applied to the same coordinate vector, returns 6: the counter
takes dims and coordinate in reverse (w,h,c,n) order, so the values disagree
on the same argument vectors. -/
theorem c3_counterexample :
    (match mkTensorDescLayout 0 [1, 2, 3, 4] Layout.NCHW with
      | .error e => .error e
      | .ok td => td.offset [0, 0, 0, 1]) = Except.ok 1 ∧
    (match mkLayoutOffsetCounter Layout.NCHW [1, 2, 3, 4] with
      | .error e => .error e
      | .ok c => c.Offset [0, 0, 0, 1]) = Except.ok 6 ∧
    (Except.ok 1 : Except String Nat) ≠ Except.ok 6 :=
  ⟨rfl, rfl, by simp⟩

/-- Claim C3, amended: for every 4-element dims [d0,d1,d2,d3] (given as
N,C,H,W) and every coordinate component-wise within bounds, the general
offset of a row-major-4D Tensor Descriptor at [v0,v1,v2,v3] equals the
Fixed-Layout Offset Counter built for the same layout with the dims given in
its reverse (w,h,c,n) convention, applied to the coordinate reversed
likewise. -/
theorem c3_general_matches_counter (d0 d1 d2 d3 v0 v1 v2 v3 : Nat)
    (h0 : v0 < d0) (h1 : v1 < d1) (h2 : v2 < d2) (h3 : v3 < d3) :
    (match mkTensorDescLayout 0 [d0, d1, d2, d3] Layout.NCHW with
      | .error e => Except.error e
      | .ok td => td.offset [v0, v1, v2, v3]) =
    (match mkLayoutOffsetCounter Layout.NCHW [d3, d2, d1, d0] with
      | .error e => Except.error e
      | .ok c => c.Offset [v3, v2, v1, v0]) := by
  have hss : shiftsSpec [0, 1, 2, 3] [d0, d1, d2, d3] [v0, v1, v2, v3] = [v0, v1, v2, v3] := by
    simp [shiftsSpec, trailingProd, Nat.mod_eq_of_lt h0, Nat.mod_eq_of_lt h1,
      Nat.mod_eq_of_lt h2, Nat.mod_eq_of_lt h3]
  have hos : offSum [v0, v1, v2, v3] (stridesOf [d0, d1, d2, d3]) (List.replicate 4 0) =
      recompose [v0, v1, v2, v3] [d0, d1, d2, d3] := offSum_strides _ _ rfl
  have hR : (match mkLayoutOffsetCounter Layout.NCHW [d3, d2, d1, d0] with
      | .error e => Except.error e
      | .ok c => c.Offset [v3, v2, v1, v0]) =
      Except.ok (0 + v3 * 1 + v2 * (1 * d3) + v1 * (1 * d3 * d2) + v0 * (1 * d3 * d2 * d1)) := rfl
  calc (match mkTensorDescLayout 0 [d0, d1, d2, d3] Layout.NCHW with
      | .error e => Except.error e
      | .ok td => td.offset [v0, v1, v2, v3])
      = Except.ok (0 + offSum (shiftsSpec [0, 1, 2, 3] [d0, d1, d2, d3] [v0, v1, v2, v3])
          (stridesOf [d0, d1, d2, d3]) (List.replicate 4 0)) :=
        offset_spec
          ⟨[d0, d1, d2, d3],
            ⟨[d0, d1, d2, d3], stridesOf [d0, d1, d2, d3], [0, 1, 2, 3], 0,
              List.replicate 4 0⟩, Layout.NCHW, 0⟩
          [v0, v1, v2, v3] (by simp) rfl rfl rfl
          (by intro o ho; simp at ho ⊢; omega)
    _ = Except.ok (0 + recompose [v0, v1, v2, v3] [d0, d1, d2, d3]) := by rw [hss, hos]
    _ = (match mkLayoutOffsetCounter Layout.NCHW [d3, d2, d1, d0] with
      | .error e => Except.error e
      | .ok c => c.Offset [v3, v2, v1, v0]) := by
        rw [hR]
        congr 1
        simp [recompose]
        ring

/-- Claim C3 witness: the amended equivalence at dims [1,2,3,4] and coordinate
[0,1,2,3]. -/
theorem c3_general_matches_counter_witness :
    (match mkTensorDescLayout 0 [1, 2, 3, 4] Layout.NCHW with
      | .error e => Except.error e
      | .ok td => td.offset [0, 1, 2, 3]) =
    (match mkLayoutOffsetCounter Layout.NCHW [4, 3, 2, 1] with
      | .error e => Except.error e
      | .ok c => c.Offset [3, 2, 1, 0]) :=
  c3_general_matches_counter 1 2 3 4 0 1 2 3 (by decide) (by decide) (by decide) (by decide)

/-- Claim C4: on a descriptor with a defined layout and consistent lengths,
offset(coordinate) is offsetPadding plus the per-axis sum of
(remainder-within-block + offsetPaddingToData) * stride, the remainders being
the successive modulo/divide decomposition of the logical coordinates; and in
particular the channel-last-4D example on dims [1,3,4,4] at coordinate
[0,1,2,3] gives 34. -/
theorem c4_offset_formula (td : TensorDesc) (v : SizeVector)
    (hl : td.layout ≠ Layout.ANY)
    (hbd : td.blockingDesc.blockedDims.length = td.blockingDesc.order.length)
    (hst : td.blockingDesc.strides.length = td.blockingDesc.order.length)
    (hpd : td.blockingDesc.offsetPaddingToData.length = td.blockingDesc.order.length)
    (hmem : ∀ o ∈ td.blockingDesc.order, o < v.length) :
    td.offset v = .ok (td.blockingDesc.offsetPadding +
      offSum (shiftsSpec td.blockingDesc.order td.blockingDesc.blockedDims v)
        td.blockingDesc.strides td.blockingDesc.offsetPaddingToData) ∧
    (match mkTensorDescLayout 0 [1, 3, 4, 4] Layout.NHWC with
      | .error e => .error e
      | .ok td2 => td2.offset [0, 1, 2, 3]) = Except.ok 34 :=
  ⟨offset_spec td v hl hbd hst hpd hmem, rfl⟩

/-- Claim C4 witness: the formula instantiated on the canonical channel-last
descriptor over dims [1,3,4,4] at coordinate [0,1,2,3]. -/
theorem c4_offset_formula_witness :
    TensorDesc.offset
        ⟨[1, 3, 4, 4], ⟨[1, 4, 4, 3], [48, 12, 3, 1], [0, 2, 3, 1], 0, [0, 0, 0, 0]⟩,
          Layout.NHWC, 0⟩ [0, 1, 2, 3] =
      .ok (0 + offSum (shiftsSpec [0, 2, 3, 1] [1, 4, 4, 3] [0, 1, 2, 3])
        [48, 12, 3, 1] [0, 0, 0, 0]) ∧
    (match mkTensorDescLayout 0 [1, 3, 4, 4] Layout.NHWC with
      | .error e => .error e
      | .ok td2 => td2.offset [0, 1, 2, 3]) = Except.ok 34 :=
  c4_offset_formula
    ⟨[1, 3, 4, 4], ⟨[1, 4, 4, 3], [48, 12, 3, 1], [0, 2, 3, 1], 0, [0, 0, 0, 0]⟩,
      Layout.NHWC, 0⟩ [0, 1, 2, 3]
    (by decide) (by decide) (by decide) (by decide) (by decide)

/-- Claim C5, counterexample: constructing a Layout Descriptor from an empty
block-dims sequence and the non-empty order [0] is not rejected: the
constructor returns early with the given order stored and every other
sequence empty. -/
theorem c5_counterexample :
    mkBlockingDescOrder [] [0] = .ok { undefinedDesc with order := [0] } := rfl

/-- Claim C5, amended: in the explicit block-dims + order construction, one or
both inputs empty is accepted without error; the derived sequences stay empty
and offsetPadding is 0, with the supplied order stored verbatim, so the
both-empty case yields exactly the undefined state. -/
theorem c5_empty_accepted (block_dims ord : SizeVector) (h : block_dims = [] ∨ ord = []) :
    mkBlockingDescOrder block_dims ord = .ok { undefinedDesc with order := ord } := by
  rcases h with h | h <;> subst h <;> simp [mkBlockingDescOrder]

/-- Claim C5 witness: the both-empty construction yields the undefined state. -/
theorem c5_empty_accepted_witness :
    mkBlockingDescOrder [] ([] : SizeVector) = .ok { undefinedDesc with order := [] } :=
  c5_empty_accepted [] [] (Or.inl rfl)

/-- Claim C6: for non-empty, equal-length block dims and order, the
construction succeeds; strides are the right-to-left cumulative product
(last stride 1, each stride the next stride times the next block dim), every
offsetPaddingToData entry is 0, and offsetPadding is 0. -/
theorem c6_canonical_strides (bds ord : SizeVector) (hb : bds ≠ []) (ho : ord ≠ [])
    (hlen : bds.length = ord.length) :
    ∃ d, mkBlockingDescOrder bds ord = .ok d ∧
      d.strides.length = bds.length ∧
      d.strides.getD (bds.length - 1) 0 = 1 ∧
      (∀ i, i + 1 < bds.length →
        d.strides.getD i 0 = d.strides.getD (i + 1) 0 * bds.getD (i + 1) 0) ∧
      d.offsetPaddingToData = List.replicate bds.length 0 ∧
      d.offsetPadding = 0 := by
  have hb' : bds.isEmpty = false := by
    cases bds with
    | nil => exact absurd rfl hb
    | cons x xs => rfl
  have ho' : ord.isEmpty = false := by
    cases ord with
    | nil => exact absurd rfl ho
    | cons x xs => rfl
  have hpos : 0 < bds.length := List.length_pos.mpr hb
  have hmk : mkBlockingDescOrder bds ord =
      .ok ⟨bds, stridesOf bds, ord, 0, List.replicate ord.length 0⟩ := by
    simp [mkBlockingDescOrder, hb', ho', fillDesc, hlen]
  refine ⟨_, hmk, stridesOf_length bds, ?_, ?_, by rw [hlen], rfl⟩
  · rw [stridesOf_getD bds (bds.length - 1) (by omega)]
    have : bds.length - 1 + 1 = bds.length := by omega
    rw [this, List.drop_length, List.prod_nil]
  · intro i hi
    rw [stridesOf_getD bds i (by omega), stridesOf_getD bds (i + 1) hi,
      drop_eq_getD_cons bds (i + 1) hi, List.prod_cons]
    ring

/-- Claim C6 witness: the canonical strides on block dims [2,3,4] with order
[0,1,2]. -/
theorem c6_canonical_strides_witness :
    ∃ d, mkBlockingDescOrder [2, 3, 4] [0, 1, 2] = .ok d ∧
      d.strides.length = [2, 3, 4].length ∧
      d.strides.getD ([2, 3, 4].length - 1) 0 = 1 ∧
      (∀ i, i + 1 < [2, 3, 4].length →
        d.strides.getD i 0 = d.strides.getD (i + 1) 0 * [2, 3, 4].getD (i + 1) 0) ∧
      d.offsetPaddingToData = List.replicate [2, 3, 4].length 0 ∧
      d.offsetPadding = 0 :=
  c6_canonical_strides [2, 3, 4] [0, 1, 2] (by decide) (by decide) rfl

/-- Claim C7: reshape on a descriptor with any non-zero offsetPaddingToData
entry fails for every choice of new dims and layout, and the failure happens
before any field is assigned, so the error carries the descriptor exactly as
it was before the call. -/
theorem c7_reshape_rejects_padding (td : TensorDesc) (dims : SizeVector) (layout : Layout)
    (h : ∃ p ∈ td.blockingDesc.offsetPaddingToData, p ≠ 0) :
    td.reshape dims layout = .error ("Cannot reshape a non-packaged blob!", td) := by
  have hb : td.blockingDesc.offsetPaddingToData.any (fun p => p != 0) = true := by
    simpa using h
  rw [TensorDesc.reshape, if_pos hb]

/-- Claim C7 witness: a padded descriptor rejects a reshape and is returned
unchanged. -/
theorem c7_reshape_rejects_padding_witness :
    TensorDesc.reshape ⟨[2], ⟨[2], [1], [0], 0, [1]⟩, Layout.C, 0⟩ [2] Layout.C =
      .error ("Cannot reshape a non-packaged blob!",
        ⟨[2], ⟨[2], [1], [0], 0, [1]⟩, Layout.C, 0⟩) :=
  c7_reshape_rejects_padding _ _ _ (by decide)

/-- Claim C8: constructing a Tensor Descriptor from an explicit Layout
Descriptor whose order has maximum m while dims.length differs from m + 1
fails with the construction error, producing no descriptor value. -/
theorem c8_arity_mismatch (p : Nat) (dims : SizeVector) (bd : BlockingDesc) (m : Nat)
    (hm : bd.order.max? = some m) (hne : dims.length ≠ m + 1) :
    mkTensorDescBlocking p dims bd =
      .error "Cannot create TensorDesc! Blocked dims are inconsistent with original dims." := by
  simp [mkTensorDescBlocking, maxElement, hm, hne]

/-- Claim C8 witness: dims of length 3 against an order with maximum 1. -/
theorem c8_arity_mismatch_witness :
    mkTensorDescBlocking 0 [2, 3, 4] ⟨[2, 3], [3, 1], [0, 1], 0, [0, 0]⟩ =
      .error "Cannot create TensorDesc! Blocked dims are inconsistent with original dims." :=
  c8_arity_mismatch 0 [2, 3, 4] ⟨[2, 3], [3, 1], [0, 1], 0, [0, 0]⟩ 1 (by decide) (by decide)

/-- Claim C9: for non-empty positive dims of arity at most 4 and the canonical
dense layout for that arity, the linear-index offset map is the identity on
the range [0, product dims) and hence a bijection of that range onto itself. -/
theorem c9_linear_offset_bijection (D : SizeVector) (hne : D ≠ []) (hlen : D.length ≤ 4)
    (hpos : ∀ d ∈ D, 0 < d) :
    ∃ td, mkTensorDescLayout 0 D (getLayoutByDims D) = .ok td ∧
      (∀ l, l < D.prod → td.offsetLinear l = .ok l) ∧
      Set.BijOn td.offsetLinearD (Set.Iio D.prod) (Set.Iio D.prod) := by
  have hofs : ∀ l, l < D.prod →
      TensorDesc.offsetLinear
        { dims := D,
          blockingDesc := { blockedDims := D, strides := stridesOf D,
                            order := List.range D.length, offsetPadding := 0,
                            offsetPaddingToData := List.replicate D.length 0 },
          layout := getLayoutByDims D, precision := 0 } l = .ok l := by
    intro l hl
    have hplen : (decomposeRev l D).1.length = D.length := decomposeRev_length l D
    have hb := decomposeRev_bound l D hpos
    have hsp := offset_spec
      { dims := D,
        blockingDesc := { blockedDims := D, strides := stridesOf D,
                          order := List.range D.length, offsetPadding := 0,
                          offsetPaddingToData := List.replicate D.length 0 },
        layout := getLayoutByDims D, precision := 0 }
      (decomposeRev l D).1 (getLayoutByDims_ne_any D) (by simp) (by simp [stridesOf_length])
      (by simp)
      (fun o hoo => by rw [hplen]; exact List.mem_range.mp (by simpa using hoo))
    show TensorDesc.offset
      { dims := D,
        blockingDesc := { blockedDims := D, strides := stridesOf D,
                          order := List.range D.length, offsetPadding := 0,
                          offsetPaddingToData := List.replicate D.length 0 },
        layout := getLayoutByDims D, precision := 0 } (decomposeRev l D).1 = Except.ok l
    rw [hsp]
    show Except.ok (0 + offSum (shiftsSpec (List.range D.length) D (decomposeRev l D).1)
        (stridesOf D) (List.replicate D.length 0)) = Except.ok l
    rw [List.range_eq_range',
      shiftsSpec_range' D 0 (decomposeRev l D).1 (by simpa using hplen)
        (fun i hi => by simpa using hb i hi),
      List.drop_zero, offSum_strides _ _ hplen,
      recompose_decomposeRev l D hpos hl, Nat.zero_add]
  refine ⟨_, mkTensorDescLayout_canonical 0 D hne hlen, hofs, ?_⟩
  refine (Set.bijOn_id _).congr fun x hx => ?_
  have hx' : x < D.prod := hx
  simp [TensorDesc.offsetLinearD, hofs x hx', Except.toOption]

/-- Claim C9 witness: the linear-offset bijection on dims [2,3]. -/
theorem c9_linear_offset_bijection_witness :
    ∃ td, mkTensorDescLayout 0 [2, 3] (getLayoutByDims [2, 3]) = .ok td ∧
      (∀ l, l < List.prod [2, 3] → td.offsetLinear l = .ok l) ∧
      Set.BijOn td.offsetLinearD (Set.Iio (List.prod [2, 3])) (Set.Iio (List.prod [2, 3])) :=
  c9_linear_offset_bijection [2, 3] (by decide) (by decide) (by decide)

/-- Claim C10: parse_impl_name produces exactly the bitwise OR of the
capability flags whose keyword occurs as a substring of the input, with ref
also set when nchw occurs and winograd when wino occurs; with no keyword the
result is the empty OR, i.e. unknown (0). The function is pure: equal inputs
give equal results. -/
theorem c10_parse_flags (s t : List Char) (hst : s = t) :
    parse_impl_name s =
      ((if List.IsInfix ['r', 'e', 'f'] s ∨ List.IsInfix ['n', 'c', 'h', 'w'] s
          then refFlag else 0) |||
       (if List.IsInfix ['j', 'i', 't'] s then jitFlag else 0) |||
       (if List.IsInfix ['g', 'e', 'm', 'm'] s then gemmFlag else 0) |||
       (if List.IsInfix ['b', 'l', 'a', 's'] s then blasFlag else 0) |||
       (if List.IsInfix ['s', 's', 'e', '4', '2'] s then sse42Flag else 0) |||
       (if List.IsInfix ['a', 'v', 'x', '2'] s then avx2Flag else 0) |||
       (if List.IsInfix ['a', 'v', 'x', '5', '1', '2'] s then avx512Flag else 0) |||
       (if List.IsInfix ['a', 'n', 'y'] s then anyFlag else 0) |||
       (if List.IsInfix ['_', '1', 'x', '1'] s then f1x1Flag else 0) |||
       (if List.IsInfix ['_', 'd', 'w'] s then dwFlag else 0) |||
       (if List.IsInfix ['r', 'e', 'o', 'r', 'd', 'e', 'r'] s then reorderFlag else 0) |||
       (if List.IsInfix ['w', 'i', 'n', 'o'] s then winogradFlag else 0)) ∧
    parse_impl_name s = parse_impl_name t := by
  subst hst
  refine ⟨?_, rfl⟩
  rw [parse_impl_name]
  simp only [searchWord_or, unknownFlag]
  rw [or_merge, if_or_merge]

/-- Claim C10 witness: the flag decomposition evaluated on the name ref. -/
theorem c10_parse_flags_witness :
    parse_impl_name ['r', 'e', 'f'] =
      ((if List.IsInfix ['r', 'e', 'f'] ['r', 'e', 'f'] ∨
            List.IsInfix ['n', 'c', 'h', 'w'] ['r', 'e', 'f']
          then refFlag else 0) |||
       (if List.IsInfix ['j', 'i', 't'] ['r', 'e', 'f'] then jitFlag else 0) |||
       (if List.IsInfix ['g', 'e', 'm', 'm'] ['r', 'e', 'f'] then gemmFlag else 0) |||
       (if List.IsInfix ['b', 'l', 'a', 's'] ['r', 'e', 'f'] then blasFlag else 0) |||
       (if List.IsInfix ['s', 's', 'e', '4', '2'] ['r', 'e', 'f'] then sse42Flag else 0) |||
       (if List.IsInfix ['a', 'v', 'x', '2'] ['r', 'e', 'f'] then avx2Flag else 0) |||
       (if List.IsInfix ['a', 'v', 'x', '5', '1', '2'] ['r', 'e', 'f'] then avx512Flag else 0) |||
       (if List.IsInfix ['a', 'n', 'y'] ['r', 'e', 'f'] then anyFlag else 0) |||
       (if List.IsInfix ['_', '1', 'x', '1'] ['r', 'e', 'f'] then f1x1Flag else 0) |||
       (if List.IsInfix ['_', 'd', 'w'] ['r', 'e', 'f'] then dwFlag else 0) |||
       (if List.IsInfix ['r', 'e', 'o', 'r', 'd', 'e', 'r'] ['r', 'e', 'f']
          then reorderFlag else 0) |||
       (if List.IsInfix ['w', 'i', 'n', 'o'] ['r', 'e', 'f'] then winogradFlag else 0)) ∧
    parse_impl_name ['r', 'e', 'f'] = parse_impl_name ['r', 'e', 'f'] :=
  c10_parse_flags ['r', 'e', 'f'] ['r', 'e', 'f'] rfl

end IE
